import Mathlib

/-!
Verification development for the XYZ chemical-file format handler
(`avogadro/io/xyzformat.cpp`): a shallow embedding of `XyzFormat::read` and
`XyzFormat::write` together with theorems about their behaviour.

Modelling conventions:
* An input stream is a list of lines (`List String`); `std::getline` on an
  exhausted stream erases the target string, which the model renders as
  returning `""` (C++11 `getline` calls `str.erase()` before extracting).
* Coordinates are exact rationals (`Rat`).  The source stores `double`s; every
  input exercised here is a short decimal literal that both representations
  carry exactly, so no rounding behaviour is lost.
* The caller-supplied `Core::Molecule&` is threaded explicitly: `read` returns
  the final molecule both on success and on failure, mirroring the fact that
  the C++ function mutates the reference it was given even when it returns
  `false`.
* Collaborators that live outside the two source files (`Core::lexicalCast`,
  `Core::split`, `Core::trimmed`, `Core::Elements`, `Core::Molecule`) are
  modelled from the spec's interface descriptions; each such definition says so
  in its doc comment.
-/

/-- An exact rational number in lowest terms with positive denominator: the
model for the coordinate values the format carries.  The source stores
`double`s; every input exercised in this development is a short decimal
literal that both representations carry exactly. -/
structure Frac where
  num : Int
  den : Nat
deriving DecidableEq, Repr

/-- Construct `n / d` in lowest terms (`d` is positive at every use site; a
zero numerator normalizes to `0 / 1`). -/
def Frac.normalize (n : Int) (d : Nat) : Frac :=
  let g := n.natAbs.gcd d
  if g = 0 then ⟨0, 1⟩ else ⟨n / (g : Int), d / g⟩

/-- The integer `n` as a fraction. -/
def Frac.ofInt (n : Int) : Frac := ⟨n, 1⟩

/-- Whether `|a - b| ≤ 1 / 100000`, the position tolerance used by the
round-trip property. -/
def Frac.close5 (a b : Frac) : Bool :=
  let d := a.num * (b.den : Int) - b.num * (a.den : Int)
  let dd := (a.den : Int) * (b.den : Int)
  decide (d * 100000 ≤ dd) && decide (-dd ≤ d * 100000)

/-- A 3D position, the model of `Avogadro::Vector3` for the coordinate values
the format carries. -/
structure Vec3 where
  x : Frac
  y : Frac
  z : Frac
deriving DecidableEq, Repr

/-- Modelled from the spec: the molecule collaborator's observable state as far
as the format handler touches it — the ordered atom list (atomic number and
frame-0 position), the optional "name" data entry, the extra coordinate sets
stored via `setCoordinate3d`, and a marker recording that the post-hoc
`perceiveBondsSimple` call happened (the heuristic itself is opaque to this
core). -/
structure Molecule where
  atoms : List (Nat × Vec3)
  name : Option String
  coords : List (List Vec3)
  bondsPerceived : Bool
deriving DecidableEq, Repr

/-- A molecule with no atoms, no name, no extra frames. -/
def emptyMol : Molecule := { atoms := [], name := none, coords := [], bondsPerceived := false }

/-- Modelled from the spec: `addAtom(atomicNumber)` followed by
`setPosition3d(pos)` on the fresh atom — appends one atom record. -/
def Molecule.addAtomPos (m : Molecule) (atomicNum : Nat) (pos : Vec3) : Molecule :=
  { m with atoms := m.atoms ++ [(atomicNum, pos)] }

/-- Modelled from the spec: `setData("name", text)` on the molecule. -/
def Molecule.setName (m : Molecule) (s : String) : Molecule :=
  { m with name := some s }

/-- Model of `mol.atomCount()`. -/
def Molecule.atomCount (m : Molecule) : Nat := m.atoms.length

/-- Model of `mol.atomPositions3d()`: the positions of all atoms, in order. -/
def Molecule.atomPositions3d (m : Molecule) : List Vec3 := m.atoms.map Prod.snd

/-- Modelled from the spec: `setCoordinate3d(positions, index)` stores a
coordinate set at the given index, growing the list as needed. -/
def Molecule.setCoordinate3d (m : Molecule) (ps : List Vec3) (i : Nat) : Molecule :=
  if i < m.coords.length then { m with coords := m.coords.set i ps }
  else { m with coords := m.coords ++ List.replicate (i - m.coords.length) [] ++ [ps] }

/-- Modelled from the spec: `perceiveBondsSimple()` is the opaque external
bond-perception heuristic; the model only records that it was requested. -/
def Molecule.perceiveBondsSimple (m : Molecule) : Molecule :=
  { m with bondsPerceived := true }

/-- Whitespace characters for trimming, per the C locale used by the stream
operations. -/
def isSpaceChar (c : Char) : Bool := c = ' ' || c = '\t' || c = '\n' || c = '\r'

/-- Modelled from the spec: `Core::trimmed` strips leading and trailing
whitespace. -/
def trimmed (s : String) : String :=
  String.mk (((s.data.dropWhile isSpaceChar).reverse.dropWhile isSpaceChar).reverse)

/-- Helper for `splitSp`: walk the characters accumulating the current token
(in reverse); a space ends the token and empty tokens are discarded. -/
def splitSpAux : List Char → List Char → List String
  | [], acc => if acc.isEmpty then [] else [String.mk acc.reverse]
  | c :: cs, acc =>
    if c = ' ' then
      if acc.isEmpty then splitSpAux cs []
      else String.mk acc.reverse :: splitSpAux cs []
    else splitSpAux cs (c :: acc)

/-- Modelled from the spec: `Core::split(buffer, ' ')` — tokenize on the space
character, discarding empty tokens (runs of spaces act as one separator). -/
def splitSp (s : String) : List String := splitSpAux s.data []

/-- Numeric value of a list of decimal digit characters. -/
def digitsToNat (ds : List Char) : Nat :=
  ds.foldl (fun n c => 10 * n + (c.toNat - 48)) 0

/-- Modelled from the spec: the numeric parsing service for integers — parse
the whole (whitespace-trimmed) token as an optionally signed decimal integer,
with explicit failure on non-numeric content. -/
def parseInt? (s : String) : Option Int :=
  let cs := (((s.data.dropWhile isSpaceChar).reverse.dropWhile isSpaceChar).reverse)
  match cs with
  | '-' :: r => if r ≠ [] ∧ r.all Char.isDigit then some (-(digitsToNat r : Int)) else none
  | '+' :: r => if r ≠ [] ∧ r.all Char.isDigit then some ((digitsToNat r : Int)) else none
  | r => if r ≠ [] ∧ r.all Char.isDigit then some ((digitsToNat r : Int)) else none

/-- Modelled from the spec: the numeric parsing service for floating-point
tokens — an optionally signed decimal with an optional fractional part, with
explicit failure on non-numeric content.  The value is an exact rational. -/
def parseRat? (s : String) : Option Frac :=
  let cs := (((s.data.dropWhile isSpaceChar).reverse.dropWhile isSpaceChar).reverse)
  let (neg, cs1) :=
    match cs with
    | '-' :: r => (true, r)
    | '+' :: r => (false, r)
    | r => (false, r)
  let ip := cs1.takeWhile Char.isDigit
  let rest := cs1.dropWhile Char.isDigit
  let sign : Int := if neg then -1 else 1
  match rest with
  | [] =>
    if ip = [] then none
    else some (Frac.normalize (sign * (digitsToNat ip : Int)) 1)
  | '.' :: fr =>
    let fd := fr.takeWhile Char.isDigit
    if fr.dropWhile Char.isDigit ≠ [] then none
    else if ip = [] ∧ fd = [] then none
    else some (Frac.normalize
      (sign * ((digitsToNat ip * 10 ^ fd.length + digitsToNat fd : Nat) : Int))
      (10 ^ fd.length))
  | _ => none

/-- Model of the one-argument `lexicalCast<double>` call: the extracted value
is returned with no error channel; a failed extraction leaves 0 in the target
(C++11 stream extraction writes 0 on failure). -/
def lexicalCastRat (s : String) : Frac := (parseRat? s).getD ⟨0, 1⟩

/-- Model of the one-argument `lexicalCast<short int>` call: the extracted
value, 0 on failure; out-of-range input stores the clamped bound, as C++11
stream extraction does for `short`. -/
def lexicalCastShortVal (s : String) : Int :=
  match parseInt? s with
  | none => 0
  | some v => max (-32768) (min 32767 v)

/-- Model of the one-argument `lexicalCast<int>` call: the extracted value, 0
on failure; out-of-range input stores the clamped bound. -/
def lexicalCastIntVal (s : String) : Int :=
  match parseInt? s with
  | none => 0
  | some v => max (-2147483648) (min 2147483647 v)

/-- Value of `numAtoms2` after `numAtoms2 = lexicalCast<int>(buffer)` in the
frame-detection lookahead: the `int` result converted to the `size_t` variable
(reduction modulo 2^64 for negative values). -/
def lookaheadCount (s : String) : Nat :=
  ((lexicalCastIntVal s).emod 18446744073709551616).toNat

/-- Modelled from the spec: the periodic-table collaborator's symbol table for
the elements exercised by this development (symbol, atomic number). -/
def elementTable : List (String × Nat) :=
  [("H", 1), ("He", 2), ("Li", 3), ("Be", 4), ("B", 5), ("C", 6), ("N", 7),
   ("O", 8), ("F", 9), ("Ne", 10), ("Na", 11), ("Mg", 12), ("Al", 13),
   ("Si", 14), ("P", 15), ("S", 16), ("Cl", 17), ("Ar", 18)]

/-- Modelled from the spec: `Elements::atomicNumberFromSymbol` —
`symbolToAtomicNumber(text) -> number (0 if unknown)`. -/
def Elements.atomicNumberFromSymbol (s : String) : Nat :=
  ((elementTable.find? (fun p => p.1 = s)).map Prod.snd).getD 0

/-- Modelled from the spec: `Elements::symbol` —
`atomicNumberToSymbol(number) -> text`, the dummy symbol for an unknown
number. -/
def Elements.symbol (n : Nat) : String :=
  ((elementTable.find? (fun p => p.2 = n)).map Prod.fst).getD "Xx"

/-- First character of a token (tokens from `splitSp` are never empty; the
fallback is a non-alphabetic placeholder). -/
def frontChar (s : String) : Char := s.data.headD ' '

/-- Model of one `std::getline` step on a list of remaining lines: the line
read (`""` when the stream is exhausted, since a failed `getline` erases the
buffer) and the remaining lines. -/
def getlineD : List String → String × List String
  | [] => ("", [])
  | l :: rest => (l, rest)

/-- Model of `inStream >> numAtoms` followed by the `getline` that finishes the
first line: skip whitespace (including blank lines), read a run of decimal
digits as the atom count, and discard the remainder of that line.  `none` is
the extraction failure that produces "Error parsing number of atoms.". -/
def parseHeaderNat : List String → Option (Nat × List String)
  | [] => none
  | l :: rest =>
    let cs := l.data.dropWhile isSpaceChar
    if cs.isEmpty then parseHeaderNat rest
    else
      let ds := cs.takeWhile Char.isDigit
      if ds.isEmpty then none else some (digitsToNat ds, rest)

/-- Core of the atom-line parse, on the token list produced by `splitSp`:
fewer than 4 tokens is a failure; otherwise resolve the element (alphabetic
first character → symbol lookup; otherwise `lexicalCast<short int>` narrowed
by `static_cast<unsigned char>`), build the position from tokens 1–3, and add
the atom. -/
def readAtomTokens (tokens : List String) (mol : Molecule) : Option Molecule :=
  match tokens with
  | t0 :: t1 :: t2 :: t3 :: _ =>
    let atomicNum : Nat :=
      if (frontChar t0).isAlpha then Elements.atomicNumberFromSymbol t0
      else ((lexicalCastShortVal t0).emod 256).toNat
    some (mol.addAtomPos atomicNum ⟨lexicalCastRat t1, lexicalCastRat t2, lexicalCastRat t3⟩)
  | _ => none

/-- One iteration body of the first atom loop: tokenize the line and parse it. -/
def readAtomLine (buffer : String) (mol : Molecule) : Option Molecule :=
  readAtomTokens (splitSp buffer) mol

/-- The `for (size_t i = 0; i < numAtoms; ++i)` atom loop: on success returns
the molecule, the unread lines, and the last `buffer` contents (used by the
atom-count error message); on failure the "Not enough tokens" message and the
molecule as mutated so far. -/
def atomsLoop : Nat → List String → String → Molecule →
    (Molecule × List String × String) ⊕ (String × Molecule)
  | 0, lines, buffer, mol => Sum.inl (mol, lines, buffer)
  | n + 1, lines, _, mol =>
    match readAtomLine (getlineD lines).1 mol with
    | none => Sum.inr ("Not enough tokens in this line: " ++ (getlineD lines).1, mol)
    | some m => atomsLoop n (getlineD lines).2 (getlineD lines).1 m

/-- The per-frame inner loop: read `n` lines, requiring ≥ 4 tokens each, and
collect positions from tokens 1–3 only (the element token is not re-examined).
On failure, the "Not enough tokens" message. -/
def framePosLoop : Nat → List String → List Vec3 → (List Vec3 × List String) ⊕ String
  | 0, lines, acc => Sum.inl (acc, lines)
  | n + 1, lines, acc =>
    let buffer := (getlineD lines).1
    let rest := (getlineD lines).2
    match splitSp buffer with
    | _ :: t1 :: t2 :: t3 :: _ =>
      framePosLoop n rest (acc ++ [⟨lexicalCastRat t1, lexicalCastRat t2, lexicalCastRat t3⟩])
    | _ => Sum.inr ("Not enough tokens in this line: " ++ buffer)

/-- Outcome of `XyzFormat::read`: the boolean return value plus, on failure,
the `appendError` message.  Both constructors carry the caller's molecule as
left by the call (the C++ function mutates its `Molecule&` argument in place,
so this state is caller-visible in either case). -/
inductive ReadResult where
  | ok : Molecule → ReadResult
  | err : String → Molecule → ReadResult
deriving DecidableEq, Repr

/-- The `while (numAtoms == numAtoms2)` frame loop.  After a stored frame the
source re-reads one lookahead line: if that `getline` FAILS the loop recomputes
`numAtoms2` from the erased (empty) buffer, getting 0, and falls out of the
loop (or breaks when `numAtoms == 0`) — either way the read finishes
successfully.  If the `getline` SUCCEEDS the branch is skipped, `numAtoms2`
keeps its old value (equal to `numAtoms`), one further line is consumed as the
"blank" and the loop runs again regardless of the lookahead line's content.
The fuel argument bounds the iteration count; callers pass one more than the
number of remaining lines, which the loop (consuming at least one line per
recursing iteration) can never exhaust. -/
def framesLoop (numAtoms : Nat) : Nat → Nat → List String → Molecule → ReadResult
  | 0, _, _, mol => ReadResult.err "frame loop fuel exhausted" mol
  | fuel + 1, coordSet, lines, mol =>
    match framePosLoop numAtoms lines [] with
    | Sum.inr msg => ReadResult.err msg mol
    | Sum.inl (positions, rest) =>
      let mol2 := mol.setCoordinate3d positions coordSet
      match rest with
      | [] => ReadResult.ok mol2.perceiveBondsSimple
      | _ :: rest2 => framesLoop numAtoms fuel (coordSet + 1) (getlineD rest2).2 mol2

/-- The multi-frame detection step: one lookahead `getline`; if it succeeds,
parses to a nonzero count and that count equals `numAtoms`, skip the comment
line, store the current positions as coordinate set 0 and enter the frame
loop; otherwise finish successfully (explicitly not an error). -/
def framesSection (numAtoms : Nat) (lines : List String) (mol : Molecule) : ReadResult :=
  match lines with
  | [] => ReadResult.ok mol.perceiveBondsSimple
  | buffer :: rest =>
    let numAtoms2 := lookaheadCount buffer
    if numAtoms2 ≠ 0 ∧ numAtoms = numAtoms2 then
      let rest2 := (getlineD rest).2
      let mol2 := mol.setCoordinate3d mol.atomPositions3d 0
      framesLoop numAtoms (rest2.length + 1) 1 rest2 mol2
    else ReadResult.ok mol.perceiveBondsSimple

/-- Model of `XyzFormat::read`: parse the atom count, read the comment line
into the "name" data entry when non-empty, parse the declared number of atom
lines, check the molecule's atom tally against the declared count, then run
multi-frame detection and request bond perception. -/
def XyzFormat.read (lines : List String) (mol : Molecule) : ReadResult :=
  match parseHeaderNat lines with
  | none => ReadResult.err "Error parsing number of atoms." mol
  | some (numAtoms, rest) =>
    match atomsLoop numAtoms (getlineD rest).2 (getlineD rest).1
        (if (getlineD rest).1 = "" then mol else mol.setName (trimmed (getlineD rest).1)) with
    | Sum.inr (msg, m) => ReadResult.err msg m
    | Sum.inl (m, rest2, buffer2) =>
      if m.atomCount ≠ numAtoms then
        ReadResult.err ("Error parsing atom at index " ++ toString m.atomCount ++
          " (line " ++ toString (3 + m.atomCount) ++ ").\n" ++ buffer2) m
      else framesSection numAtoms rest2 m

/-- Round `num / den` (with `den` positive) to the nearest natural number,
ties to even — the rounding used by fixed-precision stream output. -/
def natRoundHalfEven (num den : Nat) : Nat :=
  let fl := num / den
  let rem := num % den
  if 2 * rem < den then fl
  else if den < 2 * rem then fl + 1
  else if fl % 2 = 0 then fl else fl + 1

/-- Left-pad a numeral string with zeros to 5 characters (the fractional part
of the fixed-point rendering). -/
def padZeros5 (s : String) : String :=
  String.mk (List.replicate (5 - s.length) '0') ++ s

/-- Model of `std::fixed << std::setprecision(5) << v`: sign, integer part,
'.', and exactly five fractional digits (the magnitude scaled by 10^5 and
rounded to the nearest integer). -/
def fixed5 (q : Frac) : String :=
  let neg := decide (q.num < 0)
  let n := natRoundHalfEven (q.num.natAbs * 100000) q.den
  (if neg then "-" else "") ++ toString (n / 100000) ++ "." ++ padZeros5 (toString (n % 100000))

/-- Model of `std::setw(w) << std::left << s`: pad on the right with spaces to
width `w` (never truncating). -/
def fieldLeft (w : Nat) (s : String) : String :=
  s ++ String.mk (List.replicate (w - s.length) ' ')

/-- Model of `std::setw(w) << std::right << s`: pad on the left with spaces to
width `w` (never truncating). -/
def fieldRight (w : Nat) (s : String) : String :=
  String.mk (List.replicate (w - s.length) ' ') ++ s

/-- Model of `XyzFormat::write` producing the output lines: the atom count,
the stored name (or the fixed default comment), then one formatted line per
atom. -/
def XyzFormat.write (mol : Molecule) : List String :=
  toString mol.atomCount ::
  (if (mol.name.getD "").length ≠ 0 then mol.name.getD ""
   else "XYZ file generated by Avogadro.") ::
  mol.atoms.map (fun a =>
    fieldLeft 3 (Elements.symbol a.1) ++ " " ++
    fieldRight 10 (fixed5 a.2.x) ++ " " ++
    fieldRight 10 (fixed5 a.2.y) ++ " " ++
    fieldRight 10 (fixed5 a.2.z))

/-- The full output text: every line of `write` is newline-terminated (`endl`
for the header lines, a literal newline for atom lines). -/
def writeText (mol : Molecule) : String :=
  String.join ((XyzFormat.write mol).map (fun l => l ++ "\n"))

/-- A molecule as it stands right after the comment line "c" has been stored
as the name: the starting state for the single-atom-file helper equation. -/
def commentMol : Molecule := ⟨[], some "c", [], false⟩

/-- Continuation of `XyzFormat.read` on the input `["1", "c", l]` from the
point where the single atom line's token list is examined; `read_single_eq`
identifies the full read with this continuation applied to `splitSp l`. -/
def readSingleCont (tokens : List String) (l : String) : ReadResult :=
  match (match readAtomTokens tokens commentMol with
         | none => Sum.inr ("Not enough tokens in this line: " ++ l, commentMol)
         | some m => atomsLoop 0 [] l m) with
  | Sum.inr (msg, m) => ReadResult.err msg m
  | Sum.inl (m, rest2, buffer2) =>
    if m.atomCount ≠ 1 then
      ReadResult.err ("Error parsing atom at index " ++ toString m.atomCount ++
        " (line " ++ toString (3 + m.atomCount) ++ ").\n" ++ buffer2) m
    else framesSection 1 rest2 m

/-- Continuation of `XyzFormat.read` on a two-atom file followed by one
trailing line, from the point where the lookahead line's parsed count `n2` is
tested; `read_two_lookahead_eq` identifies the full read with this
continuation. -/
def framesContTwo (n2 : Nat) (mol : Molecule) : ReadResult :=
  if n2 ≠ 0 ∧ 2 = n2 then
    framesLoop 2 1 1 [] (mol.setCoordinate3d mol.atomPositions3d 0)
  else ReadResult.ok mol.perceiveBondsSimple

/-- Continuation of `XyzFormat.read` on the well-formed two-atom file from the
point where the atom tally is checked against the declared count 2;
`read_two_anymol_eq` identifies the full read with this continuation. -/
def countCheckContTwo (m2 : Molecule) : ReadResult :=
  if m2.atomCount ≠ 2 then
    ReadResult.err ("Error parsing atom at index " ++ toString m2.atomCount ++
      " (line " ++ toString (3 + m2.atomCount) ++ ").\n" ++ "O 4.0 5.0 6.0") m2
  else framesSection 2 [] m2

/-- Left-justification in a `w`-character field, written from the spec's
words: the text, padded on the right with spaces when shorter than the
field. -/
def leftJustified (w : Nat) (s : String) : String :=
  if w ≤ s.length then s else s ++ String.mk (List.replicate (w - s.length) ' ')

/-- Right-justification in a `w`-character field, written from the spec's
words: the text, padded on the left with spaces when shorter than the
field. -/
def rightJustified (w : Nat) (s : String) : String :=
  if w ≤ s.length then s else String.mk (List.replicate (w - s.length) ' ') ++ s

/-- An atom line as the spec describes it: element symbol left-justified in a
3-character field, one space, then x, y, z each right-justified in a
10-character field in fixed-point notation with 5 digits after the decimal
point, separated by single spaces. -/
def specAtomLine (a : Nat × Vec3) : String :=
  leftJustified 3 (Elements.symbol a.1) ++ " " ++
  rightJustified 10 (fixed5 a.2.x) ++ " " ++
  rightJustified 10 (fixed5 a.2.y) ++ " " ++
  rightJustified 10 (fixed5 a.2.z)

/-- The encoder's output as the spec describes it: the atom count line, the
stored name verbatim when non-empty (otherwise the fixed default comment),
then one `specAtomLine` per atom in snapshot order. -/
def specWriteLines (mol : Molecule) : List String :=
  toString mol.atomCount ::
  (if (mol.name.getD "").length ≠ 0 then mol.name.getD ""
   else "XYZ file generated by Avogadro.") ::
  mol.atoms.map specAtomLine

/-- The molecule a failed read leaves in the caller's hands, when the read
failed. -/
def errMolOf : ReadResult → Option Molecule
  | ReadResult.ok _ => none
  | ReadResult.err _ m => some m

/-- Whether `p` is an initial segment of `s`. -/
def strStartsWith (p s : String) : Bool := decide (s.data.take p.data.length = p.data)

/-- Whether a read outcome is the atom-count-mismatch error (every such
message starts with "Error parsing atom at index "). -/
def isAtomCountMismatchErr : ReadResult → Bool
  | ReadResult.err msg _ => strStartsWith "Error parsing atom at index " msg
  | ReadResult.ok _ => false

/-- Whether a read outcome is a failure. -/
def isErrResult : ReadResult → Bool
  | ReadResult.err _ _ => true
  | ReadResult.ok _ => false

/-- Whether two atom lists agree position-by-position within the 1e-5
tolerance (same length, positions componentwise within 1/100000). -/
def allClose5 : List (Nat × Vec3) → List (Nat × Vec3) → Bool
  | [], [] => true
  | a :: as, b :: bs =>
    Frac.close5 a.2.x b.2.x && Frac.close5 a.2.y b.2.y && Frac.close5 a.2.z b.2.z &&
    allClose5 as bs
  | _, _ => false

/-- The round-trip example snapshot: atoms [(C,0,0,0), (H,1,0,0)] and name
"methane fragment". -/
def methaneFragment : Molecule :=
  ⟨[(6, ⟨⟨0, 1⟩, ⟨0, 1⟩, ⟨0, 1⟩⟩), (1, ⟨⟨1, 1⟩, ⟨0, 1⟩, ⟨0, 1⟩⟩)],
   some "methane fragment", [], false⟩

/-- Reading the three-line file `["1", "c", l]` is the single-atom
continuation applied to the tokenization of `l`: everything before the token
match is concrete computation. -/
theorem read_single_eq (l : String) :
    XyzFormat.read ["1", "c", l] emptyMol = readSingleCont (splitSp l) l := rfl

/-- Reading a well-formed two-atom file followed by one trailing line is the
lookahead continuation applied to the trailing line's parsed count. -/
theorem read_two_lookahead_eq (l : String) :
    XyzFormat.read ["2", "c", "H 1.0 2.0 3.0", "O 4.0 5.0 6.0", l] emptyMol =
      framesContTwo (lookaheadCount l)
        ⟨[(1, ⟨⟨1, 1⟩, ⟨2, 1⟩, ⟨3, 1⟩⟩), (8, ⟨⟨4, 1⟩, ⟨5, 1⟩, ⟨6, 1⟩⟩)], some "c", [], false⟩ := rfl

/-- Reading the well-formed two-atom file into an arbitrary starting molecule
is the tally-check continuation applied to that molecule with the name set and
the two parsed atoms appended. -/
theorem read_two_anymol_eq (mol : Molecule) :
    XyzFormat.read ["2", "c", "H 1.0 2.0 3.0", "O 4.0 5.0 6.0"] mol =
      countCheckContTwo (((mol.setName "c").addAtomPos 1 ⟨⟨1, 1⟩, ⟨2, 1⟩, ⟨3, 1⟩⟩).addAtomPos 8
        ⟨⟨4, 1⟩, ⟨5, 1⟩, ⟨6, 1⟩⟩) := rfl

/-- The stream-manipulator field model agrees with the spec's left-justified
field description. -/
theorem fieldLeft_eq_leftJustified (w : Nat) (s : String) : fieldLeft w s = leftJustified w s := by
  unfold fieldLeft leftJustified
  by_cases h : w ≤ s.length
  · rw [if_pos h, Nat.sub_eq_zero_of_le h]
    cases s with
    | mk data =>
      show String.mk (data ++ []) = String.mk data
      rw [List.append_nil]
  · rw [if_neg h]

/-- The stream-manipulator field model agrees with the spec's right-justified
field description. -/
theorem fieldRight_eq_rightJustified (w : Nat) (s : String) :
    fieldRight w s = rightJustified w s := by
  unfold fieldRight rightJustified
  by_cases h : w ≤ s.length
  · rw [if_pos h, Nat.sub_eq_zero_of_le h]
    cases s with
    | mk data =>
      show String.mk ([] ++ data) = String.mk data
      rw [List.nil_append]
  · rw [if_neg h]

/-- A successfully parsed atom line adds exactly one atom. -/
theorem readAtomLine_some_length (b : String) (mol m : Molecule)
    (h : readAtomLine b mol = some m) : m.atoms.length = mol.atoms.length + 1 := by
  unfold readAtomLine readAtomTokens at h
  split at h
  · injection h with h2
    rw [← h2]
    simp [Molecule.addAtomPos]
  · cases h

/-- A completed atom loop over `n` lines adds exactly `n` atoms to the
molecule it was given. -/
theorem atomsLoop_inl_length (n : Nat) :
    ∀ (lines : List String) (b : String) (mol m : Molecule) (r2 : List String) (b2 : String),
      atomsLoop n lines b mol = Sum.inl (m, r2, b2) → m.atoms.length = mol.atoms.length + n := by
  induction n with
  | zero =>
    intro lines b mol m r2 b2 h
    unfold atomsLoop at h
    injection h with h2
    injection h2 with ha hb
    subst ha
    omega
  | succ n ih =>
    intro lines b mol m r2 b2 h
    unfold atomsLoop at h
    split at h
    · cases h
    · rename_i m1 heq
      have h1 := readAtomLine_some_length _ _ _ heq
      have h2 := ih _ _ _ _ _ _ h
      omega

/-- C1, counterexample: on the input whose second atom line is short, decode
fails, yet the molecule the caller is left with is not the (empty) molecule it
supplied — the claim that the caller-visible state is unchanged on error is
false. -/
theorem c1_counterexample :
    errMolOf (XyzFormat.read ["2", "hello", "C 1.0 2.0 3.0", "C 1.0"] emptyMol) ≠ none ∧
    errMolOf (XyzFormat.read ["2", "hello", "C 1.0 2.0 3.0", "C 1.0"] emptyMol) ≠ some emptyMol := by
  decide

/-- C1, amended: a structural failure aborts the decode with only an error
outcome (no success value), but the caller-supplied molecule is not rolled
back: the name and the atoms parsed before the failing line remain visible to
the caller (here one carbon atom and the name "hello"). -/
theorem c1_error_keeps_partial_molecule :
    XyzFormat.read ["2", "hello", "C 1.0 2.0 3.0", "C 1.0"] emptyMol =
      ReadResult.err "Not enough tokens in this line: C 1.0"
        ⟨[(6, ⟨⟨1, 1⟩, ⟨2, 1⟩, ⟨3, 1⟩⟩)], some "hello", [], false⟩ := by decide

/-- C2, counterexample: the atom line "C abc 2.0 3.0" with a non-numeric
x-coordinate token does NOT fail with a MalformedCoordinate error — the decode
succeeds, with 0 silently substituted for the x coordinate. -/
theorem c2_counterexample :
    XyzFormat.read ["1", "c", "C abc 2.0 3.0"] emptyMol =
      ReadResult.ok ⟨[(6, ⟨⟨0, 1⟩, ⟨2, 1⟩, ⟨3, 1⟩⟩)], some "c", [], true⟩ := by decide

/-- C2, amended: on any required atom line with at least four tokens whose
second token fails numeric parsing, the decode does not abort: the coordinate
cast's failure value 0 is stored as the x coordinate and the atom is accepted.
There is no MalformedCoordinate error in the decoder. -/
theorem c2_nonnumeric_coordinate_is_silent_zero (l t t1 t2 t3 : String) (rest : List String)
    (hsplit : splitSp l = t :: t1 :: t2 :: t3 :: rest)
    (hbad : parseRat? t1 = none) :
    XyzFormat.read ["1", "c", l] emptyMol =
      ReadResult.ok ⟨[((if (frontChar t).isAlpha then Elements.atomicNumberFromSymbol t
          else ((lexicalCastShortVal t).emod 256).toNat),
        ⟨⟨0, 1⟩, lexicalCastRat t2, lexicalCastRat t3⟩)], some "c", [], true⟩ := by
  have hx : lexicalCastRat t1 = ⟨0, 1⟩ := by
    unfold lexicalCastRat
    rw [hbad]
    rfl
  rw [read_single_eq, hsplit, ← hx]
  rfl

/-- C2, witness: the amended theorem applied to the spec's own example line
"C abc 2.0 3.0". -/
theorem c2_nonnumeric_coordinate_is_silent_zero_witness :
    XyzFormat.read ["1", "c", "C abc 2.0 3.0"] emptyMol =
      ReadResult.ok ⟨[((if (frontChar "C").isAlpha then Elements.atomicNumberFromSymbol "C"
          else ((lexicalCastShortVal "C").emod 256).toNat),
        ⟨⟨0, 1⟩, lexicalCastRat "2.0", lexicalCastRat "3.0"⟩)], some "c", [], true⟩ :=
  c2_nonnumeric_coordinate_is_silent_zero "C abc 2.0 3.0" "C" "abc" "2.0" "3.0" []
    (by decide) (by decide)

/-- C3, counterexample: after one successfully stored extra frame, a lookahead
line "3" (present, an integer, different from N = 2) does NOT terminate frame
reading normally: the loop never re-checks the value, consumes the line, and
fails with a "Not enough tokens" error when the stream runs out — where the
claim requires termination with no error. -/
theorem c3_counterexample :
    XyzFormat.read ["2", "c", "H 1.0 2.0 3.0", "O 4.0 5.0 6.0", "2", "",
        "H 1.0 2.0 3.0", "O 4.0 5.0 6.0", "3"] emptyMol =
      ReadResult.err "Not enough tokens in this line: "
        ⟨[(1, ⟨⟨1, 1⟩, ⟨2, 1⟩, ⟨3, 1⟩⟩), (8, ⟨⟨4, 1⟩, ⟨5, 1⟩, ⟨6, 1⟩⟩)], some "c",
         [[⟨⟨1, 1⟩, ⟨2, 1⟩, ⟨3, 1⟩⟩, ⟨⟨4, 1⟩, ⟨5, 1⟩, ⟨6, 1⟩⟩],
          [⟨⟨1, 1⟩, ⟨2, 1⟩, ⟨3, 1⟩⟩, ⟨⟨4, 1⟩, ⟨5, 1⟩, ⟨6, 1⟩⟩]], false⟩ := by decide

/-- C3, amended: the absent / non-integer / different-value termination rule
holds for the lookahead after the INITIAL block only: any trailing line whose
parsed count differs from N (including unparseable lines, whose count is 0)
ends the decode normally with no extra frames and no error, as does an absent
lookahead.  (After a subsequent frame block the value is never re-checked —
the counterexample exhibits the resulting error.) -/
theorem c3_initial_lookahead_termination :
    (∀ l : String, lookaheadCount l ≠ 2 →
      XyzFormat.read ["2", "c", "H 1.0 2.0 3.0", "O 4.0 5.0 6.0", l] emptyMol =
        ReadResult.ok ⟨[(1, ⟨⟨1, 1⟩, ⟨2, 1⟩, ⟨3, 1⟩⟩), (8, ⟨⟨4, 1⟩, ⟨5, 1⟩, ⟨6, 1⟩⟩)],
          some "c", [], true⟩) ∧
    XyzFormat.read ["2", "c", "H 1.0 2.0 3.0", "O 4.0 5.0 6.0"] emptyMol =
      ReadResult.ok ⟨[(1, ⟨⟨1, 1⟩, ⟨2, 1⟩, ⟨3, 1⟩⟩), (8, ⟨⟨4, 1⟩, ⟨5, 1⟩, ⟨6, 1⟩⟩)],
        some "c", [], true⟩ := by
  constructor
  · intro l h
    rw [read_two_lookahead_eq]
    unfold framesContTwo
    rw [if_neg]
    · rfl
    · intro hc
      exact h hc.2.symm
  · decide

/-- C3, witness: the amended theorem applied to the spec's trailing line "3"
(count 3 ≠ 2). -/
theorem c3_initial_lookahead_termination_witness :
    XyzFormat.read ["2", "c", "H 1.0 2.0 3.0", "O 4.0 5.0 6.0", "3"] emptyMol =
      ReadResult.ok ⟨[(1, ⟨⟨1, 1⟩, ⟨2, 1⟩, ⟨3, 1⟩⟩), (8, ⟨⟨4, 1⟩, ⟨5, 1⟩, ⟨6, 1⟩⟩)],
        some "c", [], true⟩ :=
  c3_initial_lookahead_termination.1 "3" (by decide)

/-- C4: the two-block input (header "2", comment, two atom lines, "2", blank,
two more atom lines, end of stream) decodes successfully to a snapshot with
exactly 2 atoms and exactly two stored coordinate sets: frame 0 holding the
first block's positions and frame 1 holding the second block's. -/
theorem c4_second_frame_decode :
    XyzFormat.read ["2", "frame test", "H 0.0 0.0 0.0", "O 1.0 0.0 0.0", "2", "",
        "H 0.5 0.5 0.5", "O 1.5 0.5 0.5"] emptyMol =
      ReadResult.ok ⟨[(1, ⟨⟨0, 1⟩, ⟨0, 1⟩, ⟨0, 1⟩⟩), (8, ⟨⟨1, 1⟩, ⟨0, 1⟩, ⟨0, 1⟩⟩)],
        some "frame test",
        [[⟨⟨0, 1⟩, ⟨0, 1⟩, ⟨0, 1⟩⟩, ⟨⟨1, 1⟩, ⟨0, 1⟩, ⟨0, 1⟩⟩],
         [⟨⟨1, 2⟩, ⟨1, 2⟩, ⟨1, 2⟩⟩, ⟨⟨3, 2⟩, ⟨1, 2⟩, ⟨1, 2⟩⟩]], true⟩ := by decide

/-- C5, counterexample: header "3" followed by only 2 parsable atom lines does
fail, but NOT with the atom-count-mismatch error the claim names: the failed
`getline` leaves an empty buffer, so the error is the too-few-tokens one. -/
theorem c5_counterexample :
    isErrResult (XyzFormat.read ["3", "c", "H 1.0 2.0 3.0", "O 4.0 5.0 6.0"] emptyMol) = true ∧
    isAtomCountMismatchErr
      (XyzFormat.read ["3", "c", "H 1.0 2.0 3.0", "O 4.0 5.0 6.0"] emptyMol) = false := by decide

/-- C5, amended: header "3" with only 2 atom lines before end of stream fails
terminally with the too-few-tokens error carrying the (empty) content of the
missing line; the atom-count check is only reached after N lines each provided
four tokens. -/
theorem c5_truncated_stream_error :
    XyzFormat.read ["3", "c", "H 1.0 2.0 3.0", "O 4.0 5.0 6.0"] emptyMol =
      ReadResult.err "Not enough tokens in this line: "
        ⟨[(1, ⟨⟨1, 1⟩, ⟨2, 1⟩, ⟨3, 1⟩⟩), (8, ⟨⟨4, 1⟩, ⟨5, 1⟩, ⟨6, 1⟩⟩)], some "c", [], false⟩ := by
  decide

/-- C6: encoding the snapshot with atoms [(C,0,0,0), (H,1,0,0)] and name
"methane fragment" and decoding the produced text yields an atom list with the
same order and elements, positions equal within 1e-5 (indeed exactly), and the
same name. -/
theorem c6_encode_decode_roundtrip :
    ∃ m : Molecule,
      XyzFormat.read (XyzFormat.write methaneFragment) emptyMol = ReadResult.ok m ∧
      m.atoms.map Prod.fst = methaneFragment.atoms.map Prod.fst ∧
      allClose5 m.atoms methaneFragment.atoms = true ∧
      m.name = methaneFragment.name :=
  ⟨⟨[(6, ⟨⟨0, 1⟩, ⟨0, 1⟩, ⟨0, 1⟩⟩), (1, ⟨⟨1, 1⟩, ⟨0, 1⟩, ⟨0, 1⟩⟩)],
     some "methane fragment", [], true⟩,
   by decide, by decide, by decide, by decide⟩

/-- C7: for every snapshot the encoder emits exactly the lines the spec
describes — the atom count, the stored name verbatim when non-empty (otherwise
the fixed default comment), then one line per atom in snapshot order with the
symbol left-justified in a 3-character field and each coordinate fixed-point
with 5 decimals right-justified in a 10-character field, single spaces
between, every line newline-terminated in the emitted text. -/
theorem c7_write_format (mol : Molecule) :
    XyzFormat.write mol = specWriteLines mol ∧
    writeText mol = String.join ((specWriteLines mol).map (fun l => l ++ "\n")) := by
  have h1 : XyzFormat.write mol = specWriteLines mol := by
    unfold XyzFormat.write specWriteLines specAtomLine
    simp only [fieldLeft_eq_leftJustified, fieldRight_eq_rightJustified]
  refine ⟨h1, ?_⟩
  unfold writeText
  rw [h1]

/-- C8: on a required atom line with at least four tokens, a token whose first
character is alphabetic is resolved through the element service (so an unknown
symbol yields that service's 0 without aborting), any other token goes through
the integer cast — and in both cases the decode succeeds. -/
theorem c8_element_resolution (l t t1 t2 t3 : String) (rest : List String)
    (hsplit : splitSp l = t :: t1 :: t2 :: t3 :: rest) :
    XyzFormat.read ["1", "c", l] emptyMol =
      ReadResult.ok ⟨[((if (frontChar t).isAlpha then Elements.atomicNumberFromSymbol t
          else ((lexicalCastShortVal t).emod 256).toNat),
        ⟨lexicalCastRat t1, lexicalCastRat t2, lexicalCastRat t3⟩)], some "c", [], true⟩ := by
  rw [read_single_eq, hsplit]
  rfl

/-- C8, witness: the unknown alphabetic symbol "Zz" resolves to atomic number
0 and the decode still succeeds. -/
theorem c8_element_resolution_witness :
    XyzFormat.read ["1", "c", "Zz 1.0 2.0 3.0"] emptyMol =
      ReadResult.ok ⟨[(0, ⟨⟨1, 1⟩, ⟨2, 1⟩, ⟨3, 1⟩⟩)], some "c", [], true⟩ := by
  rw [c8_element_resolution "Zz 1.0 2.0 3.0" "Zz" "1.0" "2.0" "3.0" [] (by decide)]
  decide

/-- C9: an element token with a non-alphabetic first character is parsed as a
signed short integer and narrowed by `static_cast<unsigned char>`, so the
stored atomic number is the parsed value reduced modulo 256 — with no
error. -/
theorem c9_short_cast_narrows_mod_256 (l t t1 t2 t3 : String) (rest : List String) (v : Int)
    (hsplit : splitSp l = t :: t1 :: t2 :: t3 :: rest)
    (halpha : (frontChar t).isAlpha = false)
    (hv : parseInt? t = some v) (hlo : -32768 ≤ v) (hhi : v ≤ 32767) :
    XyzFormat.read ["1", "c", l] emptyMol =
      ReadResult.ok ⟨[((v.emod 256).toNat,
        ⟨lexicalCastRat t1, lexicalCastRat t2, lexicalCastRat t3⟩)], some "c", [], true⟩ := by
  have hshort : lexicalCastShortVal t = v := by
    unfold lexicalCastShortVal
    rw [hv]
    show max (-32768) (min 32767 v) = v
    rw [min_eq_right hhi, max_eq_right hlo]
  rw [read_single_eq, hsplit]
  have e2 : readSingleCont (t :: t1 :: t2 :: t3 :: rest) l =
      ReadResult.ok ⟨[((if (frontChar t).isAlpha then Elements.atomicNumberFromSymbol t
          else ((lexicalCastShortVal t).emod 256).toNat),
        ⟨lexicalCastRat t1, lexicalCastRat t2, lexicalCastRat t3⟩)], some "c", [], true⟩ := rfl
  rw [e2]
  simp [halpha, hshort]

/-- C9, witness: the token "300" yields atomic number 44 = 300 mod 256. -/
theorem c9_short_cast_narrows_mod_256_witness :
    XyzFormat.read ["1", "c", "300 1.0 2.0 3.0"] emptyMol =
      ReadResult.ok ⟨[(44, ⟨⟨1, 1⟩, ⟨2, 1⟩, ⟨3, 1⟩⟩)], some "c", [], true⟩ := by
  rw [c9_short_cast_narrows_mod_256 "300 1.0 2.0 3.0" "300" "1.0" "2.0" "3.0" [] 300
    (by decide) (by decide) (by decide) (by decide) (by decide)]
  decide

/-- C10: decode appends the parsed atoms to the caller's molecule and compares
the TOTAL atom count to the declared count, so (first conjunct) any molecule
that already holds at least one atom makes a well-formed two-atom file fail
with the atom-count-mismatch error at the expected line, and (second conjunct)
every successful read must have started from a molecule with no atoms. -/
theorem c10_prepopulated_molecule_fails :
    (∀ mol : Molecule, mol.atoms ≠ [] →
      XyzFormat.read ["2", "c", "H 1.0 2.0 3.0", "O 4.0 5.0 6.0"] mol =
        ReadResult.err ("Error parsing atom at index " ++ toString (mol.atoms.length + 2) ++
            " (line " ++ toString (3 + (mol.atoms.length + 2)) ++ ").\n" ++ "O 4.0 5.0 6.0")
          (((mol.setName "c").addAtomPos 1 ⟨⟨1, 1⟩, ⟨2, 1⟩, ⟨3, 1⟩⟩).addAtomPos 8
            ⟨⟨4, 1⟩, ⟨5, 1⟩, ⟨6, 1⟩⟩)) ∧
    (∀ (lines : List String) (mol m : Molecule),
      XyzFormat.read lines mol = ReadResult.ok m → mol.atoms = []) := by
  constructor
  · intro mol h
    rw [read_two_anymol_eq]
    unfold countCheckContTwo
    have hcount : (((mol.setName "c").addAtomPos 1 ⟨⟨1, 1⟩, ⟨2, 1⟩, ⟨3, 1⟩⟩).addAtomPos 8
        ⟨⟨4, 1⟩, ⟨5, 1⟩, ⟨6, 1⟩⟩).atomCount = mol.atoms.length + 2 := by
      simp [Molecule.atomCount, Molecule.addAtomPos, Molecule.setName]
    have hcond : (((mol.setName "c").addAtomPos 1 ⟨⟨1, 1⟩, ⟨2, 1⟩, ⟨3, 1⟩⟩).addAtomPos 8
        ⟨⟨4, 1⟩, ⟨5, 1⟩, ⟨6, 1⟩⟩).atomCount ≠ 2 := by
      rw [hcount]
      intro hc
      apply h
      have hz : mol.atoms.length = 0 := by omega
      exact List.length_eq_zero.mp hz
    rw [if_pos hcond, hcount]
  · intro lines mol m hok
    unfold XyzFormat.read at hok
    split at hok
    · cases hok
    · rename_i N rest heq0
      split at hok
      · cases hok
      · rename_i m2 r2 b2 heq
        split at hok
        · cases hok
        · rename_i hnc
          have hN : m2.atomCount = N := by
            by_contra hcc
            exact hnc hcc
          have hlen := atomsLoop_inl_length N _ _ _ _ _ _ heq
          have hpres : (if (getlineD rest).1 = "" then mol
              else mol.setName (trimmed (getlineD rest).1)).atoms = mol.atoms := by
            split
            · rfl
            · rfl
          rw [hpres] at hlen
          have hz : mol.atoms.length = 0 := by
            unfold Molecule.atomCount at hN
            omega
          exact List.length_eq_zero.mp hz

/-- C10, witness: a molecule already holding one hydrogen makes the
well-formed two-atom file fail with the mismatch error at index 3, line 6; and
the second conjunct applied to a concrete successful read of a zero-atom file
confirms its supplied molecule was empty. -/
theorem c10_prepopulated_molecule_fails_witness :
    XyzFormat.read ["2", "c", "H 1.0 2.0 3.0", "O 4.0 5.0 6.0"]
        ⟨[(1, ⟨⟨0, 1⟩, ⟨0, 1⟩, ⟨0, 1⟩⟩)], none, [], false⟩ =
      ReadResult.err "Error parsing atom at index 3 (line 6).\nO 4.0 5.0 6.0"
        ⟨[(1, ⟨⟨0, 1⟩, ⟨0, 1⟩, ⟨0, 1⟩⟩), (1, ⟨⟨1, 1⟩, ⟨2, 1⟩, ⟨3, 1⟩⟩),
          (8, ⟨⟨4, 1⟩, ⟨5, 1⟩, ⟨6, 1⟩⟩)], some "c", [], false⟩ ∧
    emptyMol.atoms = [] := by
  constructor
  · rw [c10_prepopulated_molecule_fails.1
      ⟨[(1, ⟨⟨0, 1⟩, ⟨0, 1⟩, ⟨0, 1⟩⟩)], none, [], false⟩ (by decide)]
    decide
  · exact c10_prepopulated_molecule_fails.2 ["0", "x"] emptyMol
      ⟨[], some "x", [], true⟩ (by decide)
